import Mathlib

/-!
Shallow embedding of the real-time room coordinator of `src/server.js`
(multiplayer section, lines 110–446): data model, registry operations and
socket event handlers, plus a reachability relation over registry states.

Conventions:
* The JS object `rooms` (string-keyed, insertion ordered) is a `List Room`
  in insertion order; `rooms[id]` is `findRoomById`, assignment is
  `putRoom`, `delete rooms[id]` is `eraseRoomById`.
* `Date.now()`, `Math.random()` indices and the Mongo `User` collection are
  parameters: `now : Int`, `songIdx chartIdx : Nat`, and a gateway
  `gw : String → Option Int` where `none` covers both an absent profile
  and a thrown lookup error (the `catch` branches).
* Socket emissions are reified as a list of `OutEvent`s, target-addressed
  exactly as the code addresses them (unicast / room-channel / broadcast).
-/

namespace RhythmServer

inductive Status where
  | WAITING
  | PLAYING
deriving DecidableEq, Repr

/-- Player-in-room record, as built by `create_room` / `join_room`:
`{ socketId, nickname, rating, ready, connected }`; the JS objects gain a
`finished` field only in `game_over` (`undefined` before, i.e. `false`). -/
structure Player where
  socketId : String
  nickname : String
  rating : Int
  ready : Bool
  connected : Bool
  finished : Bool := false
deriving DecidableEq, Repr

/-- Room record: `{ id, title, hostId, hostName, players, status }`. -/
structure Room where
  id : String
  title : String
  hostId : String
  hostName : String
  players : List Player
  status : Status
deriving DecidableEq, Repr

/-- One entry of `getRoomList()`. -/
structure RoomSummary where
  id : String
  title : String
  host : String
  status : Status
  pCount : Nat
deriving DecidableEq, Repr

/-- Payload of a `game_start` emission. -/
structure GameStartPayload where
  songFolder : String
  songTitle : String
  songArtist : String
  diffKey : String
  startTime : Int
  opponentRP : Int
deriving DecidableEq, Repr

/-- Outbound socket events, addressed as the code addresses them:
`target` fields are `socket.emit` unicasts, `roomId`+`exceptSid` are
`socket.to(roomId).emit` room sends, and the list-carrying constructors
without a target are `io.emit` broadcasts. -/
inductive OutEvent where
  | errorMsg (target : String) (msg : String)
  | roomJoined (target : String) (roomId : String) (roomData : Room) (isHost : Bool)
  | playerEntered (roomId : String) (exceptSid : String) (nickname : String) (rating : Int)
  | updateRoomList (list : List RoomSummary)
  | quickMatchFound (target : String) (roomId : String)
  | gameStart (target : String) (payload : GameStartPayload)
  | opponentUpdate (roomId : String) (exceptSid : String)
  | opponentFinished (roomId : String) (exceptSid : String) (finishType : String)
  | opponentLeft (roomId : String)
deriving DecidableEq, Repr

/-- Registry state: `let rooms = {}; let roomSeq = 1;`. -/
structure ServerState where
  rooms : List Room
  roomSeq : Nat
deriving DecidableEq, Repr

def initialState : ServerState := ⟨[], 1⟩

/-! ### List-as-object helpers -/

/-- Replace the first element satisfying `p` by its image under `f`
(JS mutation of the object returned by `find`). -/
def updateFirst (p : α → Bool) (f : α → α) : List α → List α
  | [] => []
  | x :: xs => if p x then f x :: xs else x :: updateFirst p f xs

/-- Remove the first element satisfying `p` (JS `delete rooms[id]`). -/
def eraseFirst (p : α → Bool) : List α → List α
  | [] => []
  | x :: xs => if p x then xs else x :: eraseFirst p xs

/-- Lookup `rooms[roomId]`. -/
def findRoomById (rooms : List Room) (roomId : String) : Option Room :=
  rooms.find? (fun r => r.id == roomId)

/-- Assignment `rooms[roomId] = room`: replace if the key exists, append otherwise. -/
def putRoom (rooms : List Room) (room : Room) : List Room :=
  if rooms.any (fun r => r.id == room.id) then
    updateFirst (fun r => r.id == room.id) (fun _ => room) rooms
  else rooms ++ [room]

/-- Deletion `delete rooms[roomId]`. -/
def eraseRoomById (rooms : List Room) (roomId : String) : List Room :=
  eraseFirst (fun r => r.id == roomId) rooms

/-! ### Catalog and ratings -/

structure Song where
  folder : String
  title : String
  artist : String
  charts : List String
deriving DecidableEq, Repr

/-- The `SONG_DB` catalog, verbatim. -/
def SONG_DB : List Song :=
  [ ⟨"NewEra", "New Era", "Alltoy24", ["normal_4.json", "hard_8.json", "troll_11.json"]⟩,
    ⟨"세계수의정원", "세계수의 정원", "Alltoy24", ["normal_1.json", "hard_6.json", "troll_13.json"]⟩,
    ⟨"SystemOverload", "System Overload", "Alltoy24", ["normal_5.json", "troll_16.json"]⟩,
    ⟨"SuddenAccelerationOfEmpty", "Sudden Acceleration Of Empty", "Alltoy24",
      ["hard_14.json", "troll_17.json"]⟩,
    ⟨"BreakGlassDayDream", "Break Glass Daydream", "Alltoy24", ["troll_15.json"]⟩ ]

def defaultSong : Song := ⟨"", "", "", []⟩

def defaultPlayer : Player := ⟨"", "", 0, false, false, false⟩

/-- Rating fetched inside `startGameSequence`:
`let rp = 1000; if (doc) rp = doc.rating || 1000` with the lookup wrapped
in try/catch (`gw nick = none` on absence or error, and a stored rating of
`0` is falsy, hence replaced by 1000). -/
def startRP (gw : String → Option Int) (nick : String) : Int :=
  match gw nick with
  | some x => if x != 0 then x else 1000
  | none => 1000

/-- Truthiness of `data.rp`: present and nonzero. -/
def rpTruthy (rp : Option Int) : Bool :=
  match rp with
  | some x => x != 0
  | none => false

/-- Participant rating in `join_room` / `quick_match`:
`let userRating = data.rp || 1000; if (!data.rp) { try { doc = findOne(...);
if (doc) userRating = doc.rating } catch {} }`. -/
def joinRating (rp : Option Int) (gw : String → Option Int) (nick : String) : Int :=
  if rpTruthy rp then rp.getD 0
  else
    match gw nick with
    | some y => y
    | none => 1000

/-- Host rating in `create_room`: always looked up, `1000` on absence/error. -/
def createRating (gw : String → Option Int) (nick : String) : Int :=
  match gw nick with
  | some y => y
  | none => 1000

/-- Summary list `getRoomList()`: `pCount` counts connected players only. -/
def getRoomList (rooms : List Room) : List RoomSummary :=
  rooms.map (fun r =>
    ⟨r.id, r.title, r.hostName, r.status, (r.players.filter (fun p => p.connected)).length⟩)

/-! ### Handlers -/

/-- Start sequence `startGameSequence(roomId)`: flips the room to PLAYING, picks a random
song and chart, derives `diffKey` by stripping `".json"`, computes
`startTime = now + 21000`, fetches both ratings, and unicasts `game_start`
to each player with the *opponent's* rating, then broadcasts the list. -/
def startGameSequence (st : ServerState) (roomId : String) (gw : String → Option Int)
    (songIdx chartIdx : Nat) (now : Int) : ServerState × List OutEvent :=
  match findRoomById st.rooms roomId with
  | none => (st, [])
  | some room =>
    let room1 := { room with status := Status.PLAYING }
    let rooms1 := updateFirst (fun r => r.id == roomId) (fun _ => room1) st.rooms
    let song := SONG_DB.getD (songIdx % SONG_DB.length) defaultSong
    let chart := song.charts.getD (chartIdx % song.charts.length) ""
    let diffKey := chart.replace ".json" ""
    let startTime := now + 21000
    let p1 := room1.players.getD 0 defaultPlayer
    let p2 := room1.players.getD 1 defaultPlayer
    let p1RP := startRP gw p1.nickname
    let p2RP := startRP gw p2.nickname
    ({ st with rooms := rooms1 },
      [ OutEvent.gameStart p1.socketId
          ⟨song.folder, song.title, song.artist, diffKey, startTime, p2RP⟩,
        OutEvent.gameStart p2.socketId
          ⟨song.folder, song.title, song.artist, diffKey, startTime, p1RP⟩,
        OutEvent.updateRoomList (getRoomList rooms1) ])

/-- Handler for `create_room`. -/
def createRoom (st : ServerState) (sid title nickname : String)
    (gw : String → Option Int) : ServerState × List OutEvent :=
  let roomId := "room_" ++ toString st.roomSeq
  let userRating := createRating gw nickname
  let room : Room :=
    ⟨roomId, title, sid, nickname, [⟨sid, nickname, userRating, true, true, false⟩],
      Status.WAITING⟩
  let rooms1 := putRoom st.rooms room
  (⟨rooms1, st.roomSeq + 1⟩,
    [ OutEvent.roomJoined sid roomId room true,
      OutEvent.updateRoomList (getRoomList rooms1) ])

/-- The in-place mutation of the reconnect branch: set the first player
with this nickname to the new socket, `connected = true`. -/
def reconnectRoom (room : Room) (sid nickname : String) : Room :=
  { room with
    players := updateFirst (fun p => p.nickname == nickname)
      (fun p => { p with socketId := sid, connected := true }) room.players }

/-- Handler for `join_room`: not-found error, reconnect-by-nickname branch,
full check, then append + notify + (on reaching 2 players) start sequence. -/
def joinRoom (st : ServerState) (sid roomId nickname : String) (rp : Option Int)
    (gw : String → Option Int) (songIdx chartIdx : Nat) (now : Int) :
    ServerState × List OutEvent :=
  match findRoomById st.rooms roomId with
  | none => (st, [OutEvent.errorMsg sid "Room does not exist."])
  | some room =>
    if room.players.any (fun p => p.nickname == nickname) then
      let room1 := reconnectRoom room sid nickname
      let rooms1 := updateFirst (fun r => r.id == roomId) (fun _ => room1) st.rooms
      ({ st with rooms := rooms1 },
        [OutEvent.roomJoined sid roomId room1 (room.hostName == nickname)])
    else if room.players.length ≥ 2 then
      (st, [OutEvent.errorMsg sid "Room is full."])
    else
      let userRating := joinRating rp gw nickname
      let room1 := { room with
        players := room.players ++ [⟨sid, nickname, userRating, true, true, false⟩] }
      let rooms1 := updateFirst (fun r => r.id == roomId) (fun _ => room1) st.rooms
      let st1 : ServerState := { st with rooms := rooms1 }
      let evs1 :=
        [ OutEvent.roomJoined sid roomId room1 false,
          OutEvent.playerEntered roomId sid nickname userRating,
          OutEvent.updateRoomList (getRoomList rooms1) ]
      if room1.players.length == 2 then
        let res := startGameSequence st1 roomId gw songIdx chartIdx now
        (res.1, evs1 ++ res.2)
      else (st1, evs1)

/-- Handler for `quick_match`: find the first WAITING room with fewer than 2
players; reply `quick_match_found` if found, otherwise create a room
exactly like `create_room` but titled `"<nick>'s Match"` and with the
`data.rp || 1000`-style rating resolution. -/
def quickMatch (st : ServerState) (sid nickname : String) (rp : Option Int)
    (gw : String → Option Int) : ServerState × List OutEvent :=
  match st.rooms.find? (fun r => r.status == Status.WAITING && r.players.length < 2) with
  | some availableRoom => (st, [OutEvent.quickMatchFound sid availableRoom.id])
  | none =>
    let roomId := "room_" ++ toString st.roomSeq
    let userRating := joinRating rp gw nickname
    let room : Room :=
      ⟨roomId, nickname ++ "'s Match", sid, nickname,
        [⟨sid, nickname, userRating, true, true, false⟩], Status.WAITING⟩
    let rooms1 := putRoom st.rooms room
    (⟨rooms1, st.roomSeq + 1⟩,
      [ OutEvent.roomJoined sid roomId room true,
        OutEvent.updateRoomList (getRoomList rooms1) ])

/-- Handler for `game_over`: relay `opponent_finished` to the rest of the room,
mark the sender's player `finished = true`, and destroy the room (plus a
lobby broadcast) when every remaining player is finished. -/
def gameOver (st : ServerState) (sid roomId finishType : String) :
    ServerState × List OutEvent :=
  match findRoomById st.rooms roomId with
  | none => (st, [])
  | some room =>
    let ev0 := OutEvent.opponentFinished roomId sid finishType
    let room1 := { room with
      players := updateFirst (fun p => p.socketId == sid)
        (fun p => { p with finished := true }) room.players }
    let rooms1 := updateFirst (fun r => r.id == roomId) (fun _ => room1) st.rooms
    if room1.players.all (fun p => p.finished == true) then
      let rooms2 := eraseRoomById rooms1 roomId
      (⟨rooms2, st.roomSeq⟩, [ev0, OutEvent.updateRoomList (getRoomList rooms2)])
    else (⟨rooms1, st.roomSeq⟩, [ev0])

/-- Handler for `send_score`: pure relay, no registry mutation. -/
def sendScore (st : ServerState) (sid roomId : String) : ServerState × List OutEvent :=
  (st, [OutEvent.opponentUpdate roomId sid])

/-- Outcome of `handleLeave`'s room scan. -/
inductive LeaveAction where
  | noRoom
  | playing
  | deleted (roomId : String)
  | downgraded (roomId : String)
deriving DecidableEq, Repr

/-- The `for (const rId in rooms) { ... break }` scan of `handleLeave`:
handle the first room containing this socket and leave the rest alone. -/
def leaveRooms (sid : String) : List Room → List Room × LeaveAction
  | [] => ([], LeaveAction.noRoom)
  | r :: rs =>
    if r.players.any (fun p => p.socketId == sid) then
      if r.status == Status.PLAYING then
        (({ r with
            players := updateFirst (fun p => p.socketId == sid)
              (fun p => { p with connected := false }) r.players }) :: rs,
          LeaveAction.playing)
      else
        let players1 := r.players.filter (fun p => ¬(p.socketId == sid))
        if players1.length == 0 then (rs, LeaveAction.deleted r.id)
        else (({ r with players := players1, status := Status.WAITING }) :: rs,
          LeaveAction.downgraded r.id)
    else
      let res := leaveRooms sid rs
      (r :: res.1, res.2)

/-- Handler for `leave_room` and transport `disconnect` (`handleLeave`): PLAYING rooms keep
the player with `connected = false`; WAITING rooms drop it, deleting the
room when emptied or resetting to WAITING and notifying otherwise. -/
def handleLeave (st : ServerState) (sid : String) : ServerState × List OutEvent :=
  let rooms1 := (leaveRooms sid st.rooms).1
  let st1 : ServerState := { st with rooms := rooms1 }
  match (leaveRooms sid st.rooms).2 with
  | LeaveAction.noRoom => (st1, [])
  | LeaveAction.playing => (st1, [])
  | LeaveAction.deleted _ =>
    (st1, [OutEvent.updateRoomList (getRoomList rooms1)])
  | LeaveAction.downgraded rid =>
    (st1, [OutEvent.opponentLeft rid, OutEvent.updateRoomList (getRoomList rooms1)])

/-- One reaper pass over the tail of the room map; `processed` are the
rooms already visited and kept. Each deletion broadcasts the list as it
stands at that moment. -/
def sweepAux (processed : List Room) : List Room → List Room × List OutEvent
  | [] => (processed, [])
  | r :: rs =>
    if (r.players.filter (fun p => p.connected)).length == 0 then
      let ev := OutEvent.updateRoomList (getRoomList (processed ++ rs))
      let res := sweepAux processed rs
      (res.1, ev :: res.2)
    else sweepAux (processed ++ [r]) rs

/-- One tick of the 30-second garbage-collector interval. -/
def sweep (st : ServerState) : ServerState × List OutEvent :=
  ({ st with rooms := (sweepAux [] st.rooms).1 }, (sweepAux [] st.rooms).2)

/-- The player record appended by the Joined branch. -/
def joinedPlayer (sid nickname : String) (rating : Int) : Player :=
  ⟨sid, nickname, rating, true, true, false⟩

/-- The room right after the Joined push. -/
def joinedRoom (room : Room) (np : Player) : Room :=
  { room with players := room.players ++ [np] }

/-- The `room.status = "PLAYING"` mutation of the start sequence. -/
def startedRoom (room : Room) : Room :=
  { room with status := Status.PLAYING }

/-- The `game_start` payload for the random draw `(songIdx, chartIdx)`,
clock reading `now`, and a given opponent rating. -/
def startPayload (songIdx chartIdx : Nat) (now : Int) (opponentRP : Int) : GameStartPayload :=
  let song := SONG_DB.getD (songIdx % SONG_DB.length) defaultSong
  let chart := song.charts.getD (chartIdx % song.charts.length) ""
  ⟨song.folder, song.title, song.artist, chart.replace ".json" "", now + 21000, opponentRP⟩

/-- The in-place `player.finished = true` mutation of `game_over`. -/
def finishedRoom (room : Room) (sid : String) : Room :=
  { room with players := (updateFirst (fun p => p.socketId == sid)
      (fun p => { p with finished := true }) room.players) }

/-- The in-place `player.connected = false` mutation of `handleLeave`. -/
def disconnectRoom (room : Room) (sid : String) : Room :=
  { room with players := (updateFirst (fun p => p.socketId == sid)
      (fun p => { p with connected := false }) room.players) }

/-- The WAITING-room shape after a leave that does not empty it. -/
def shrunkRoom (room : Room) (sid : String) : Room :=
  { room with
    players := room.players.filter (fun p => ¬(p.socketId == sid)),
    status := Status.WAITING }

def invRoom (r : Room) : Prop :=
  (r.players.length = 1 ∨ r.players.length = 2) ∧
    (r.status = Status.PLAYING → r.players.length = 2)

instance (r : Room) : Decidable (invRoom r) := by
  unfold invRoom
  infer_instance

def roomSizeInv (st : ServerState) : Prop :=
  ∀ r ∈ st.rooms, invRoom r

/-- The room built by the `quick_match` fallback creation branch. -/
def quickRoom (st : ServerState) (sid nickname : String) (rating : Int) : Room :=
  ⟨"room_" ++ toString st.roomSeq, nickname ++ "'s Match", sid, nickname,
    [joinedPlayer sid nickname rating], Status.WAITING⟩

/-- Recognizer for `game_start` emissions. -/
def isGameStart : OutEvent → Bool
  | OutEvent.gameStart _ _ => true
  | _ => false

/-- Two rooms have no player entry with the same connection. -/
def sidsDisjoint (r1 r2 : Room) : Prop :=
  ∀ p1 ∈ r1.players, ∀ p2 ∈ r2.players, p1.socketId ≠ p2.socketId

/-- No two distinct rooms of the registry share any connection. -/
def roomsDisjoint (st : ServerState) : Prop :=
  st.rooms.Pairwise sidsDisjoint

/-- The property claimed for every reachable state: no two distinct rooms
contain a connected player entry with the same connection. -/
def noSharedConnection (st : ServerState) : Prop :=
  st.rooms.Pairwise (fun r1 r2 => ∀ p1 ∈ r1.players, p1.connected = true →
    ∀ p2 ∈ r2.players, p2.connected = true → p1.socketId ≠ p2.socketId)

/-- Freshness: `sid` does not occur in any player entry of any room. -/
def sidFree (st : ServerState) (sid : String) : Prop :=
  ∀ r ∈ st.rooms, ∀ p ∈ r.players, p.socketId ≠ sid

instance (st : ServerState) (sid : String) : Decidable (sidFree st sid) := by
  unfold sidFree
  infer_instance

/-- States reachable by room-entering events (`create_room`, `join_room`,
`quick_match`) alone, restricted to senders whose connection is not
already recorded in any room: the client discipline under which the
claimed cross-room uniqueness does hold. -/
inductive EnterReachable : ServerState → Prop where
  | init : EnterReachable initialState
  | create (st : ServerState) (sid title nickname : String) (gw : String → Option Int) :
      EnterReachable st → sidFree st sid →
      EnterReachable (createRoom st sid title nickname gw).1
  | join (st : ServerState) (sid roomId nickname : String) (rp : Option Int)
      (gw : String → Option Int) (songIdx chartIdx : Nat) (now : Int) :
      EnterReachable st → sidFree st sid →
      EnterReachable (joinRoom st sid roomId nickname rp gw songIdx chartIdx now).1
  | quick (st : ServerState) (sid nickname : String) (rp : Option Int)
      (gw : String → Option Int) :
      EnterReachable st → sidFree st sid →
      EnterReachable (quickMatch st sid nickname rp gw).1

/-- A gateway with no profiles (every lookup misses or errs). -/
def gwNone : String → Option Int := fun _ => none

/-- The registry after the same connection `"s1"` issues `create_room`
twice without leaving: two rooms, each holding a connected entry for
`"s1"`. -/
def dupState : ServerState :=
  (createRoom (createRoom initialState "s1" "A" "Alice" gwNone).1 "s1" "B" "Alice" gwNone).1

/-- Concrete fixtures used to instantiate the theorems below. -/
def hostP : Player := ⟨"s1", "A", 1000, true, true, false⟩

def guestP : Player := ⟨"s2", "B", 1000, true, true, false⟩

/-- A one-player WAITING room. -/
def roomW : Room := ⟨"room_1", "t", "s1", "A", [hostP], Status.WAITING⟩

/-- A two-player WAITING room. -/
def roomF : Room := ⟨"room_1", "t", "s1", "A", [hostP, guestP], Status.WAITING⟩

/-- A two-player PLAYING room. -/
def roomP : Room := ⟨"room_1", "t", "s1", "A", [hostP, guestP], Status.PLAYING⟩

def stW : ServerState := ⟨[roomW], 2⟩

def stF : ServerState := ⟨[roomF], 2⟩

def stP : ServerState := ⟨[roomP], 2⟩

/-- A PLAYING room with both players disconnected. -/
def deadRoom : Room :=
  ⟨"room_1", "t", "s1", "A",
    [⟨"s1", "A", 1000, true, false, false⟩, ⟨"s2", "B", 1000, true, false, false⟩],
    Status.PLAYING⟩

def stDead : ServerState := ⟨[deadRoom], 2⟩

/-! ### Reachability -/

/-- Registry states reachable from startup by any interleaving of the
socket handlers and reaper ticks, over arbitrary senders, payloads,
gateway behaviors, random draws and clock readings. -/
inductive Reachable : ServerState → Prop where
  | init : Reachable initialState
  | create (st : ServerState) (sid title nickname : String) (gw : String → Option Int) :
      Reachable st → Reachable (createRoom st sid title nickname gw).1
  | join (st : ServerState) (sid roomId nickname : String) (rp : Option Int)
      (gw : String → Option Int) (songIdx chartIdx : Nat) (now : Int) :
      Reachable st → Reachable (joinRoom st sid roomId nickname rp gw songIdx chartIdx now).1
  | quick (st : ServerState) (sid nickname : String) (rp : Option Int)
      (gw : String → Option Int) :
      Reachable st → Reachable (quickMatch st sid nickname rp gw).1
  | finish (st : ServerState) (sid roomId finishType : String) :
      Reachable st → Reachable (gameOver st sid roomId finishType).1
  | score (st : ServerState) (sid roomId : String) :
      Reachable st → Reachable (sendScore st sid roomId).1
  | leave (st : ServerState) (sid : String) :
      Reachable st → Reachable (handleLeave st sid).1
  | reap (st : ServerState) :
      Reachable st → Reachable (sweep st).1

/-! ### Helper lemmas on the list-as-object primitives -/

theorem updateFirst_length {α : Type} (p : α → Bool) (f : α → α) (l : List α) :
    (updateFirst p f l).length = l.length := by
  induction l with
  | nil => rfl
  | cons a as ih =>
    simp only [updateFirst]
    cases hpa : p a <;> simp [ih]

theorem mem_updateFirst {α : Type} {p : α → Bool} {f : α → α} {l : List α} {y : α}
    (h : y ∈ updateFirst p f l) : y ∈ l ∨ ∃ x, x ∈ l ∧ y = f x := by
  induction l with
  | nil => simp [updateFirst] at h
  | cons a as ih =>
    by_cases hpa : p a = true
    · simp only [updateFirst, if_pos hpa, List.mem_cons] at h
      rcases h with h | h
      · exact Or.inr ⟨a, List.mem_cons_self a as, h⟩
      · exact Or.inl (List.mem_cons_of_mem a h)
    · simp only [updateFirst, if_neg hpa, List.mem_cons] at h
      rcases h with h | h
      · exact Or.inl (by simp [h])
      · rcases ih h with h1 | ⟨x, hx, hy⟩
        · exact Or.inl (List.mem_cons_of_mem a h1)
        · exact Or.inr ⟨x, List.mem_cons_of_mem a hx, hy⟩

theorem mem_eraseFirst {α : Type} {p : α → Bool} {l : List α} {y : α}
    (h : y ∈ eraseFirst p l) : y ∈ l := by
  induction l with
  | nil => simp [eraseFirst] at h
  | cons a as ih =>
    by_cases hpa : p a = true
    · simp only [eraseFirst, if_pos hpa] at h
      exact List.mem_cons_of_mem a h
    · simp only [eraseFirst, if_neg hpa, List.mem_cons] at h
      rcases h with h | h
      · simp [h]
      · exact List.mem_cons_of_mem a (ih h)

theorem find?_updateFirst {α : Type} {p : α → Bool} {f : α → α} {l : List α} {x : α}
    (h : l.find? p = some x) (hf : p (f x) = true) :
    (updateFirst p f l).find? p = some (f x) := by
  induction l with
  | nil => simp [List.find?] at h
  | cons a as ih =>
    by_cases hpa : p a = true
    · rw [List.find?_cons_of_pos _ hpa] at h
      injection h with h
      subst h
      simp [updateFirst, hpa, List.find?_cons_of_pos _ hf]
    · rw [List.find?_cons_of_neg _ hpa] at h
      simp [updateFirst, hpa, List.find?_cons_of_neg _ hpa, ih h]

theorem mem_putRoom {rooms : List Room} {room y : Room}
    (h : y ∈ putRoom rooms room) : y ∈ rooms ∨ y = room := by
  unfold putRoom at h
  by_cases hc : rooms.any (fun r => r.id == room.id)
  · rw [if_pos hc] at h
    rcases mem_updateFirst h with h1 | ⟨x, _, hy⟩
    · exact Or.inl h1
    · exact Or.inr hy
  · rw [if_neg hc] at h
    rcases List.mem_append.mp h with h1 | h1
    · exact Or.inl h1
    · exact Or.inr (List.mem_singleton.mp h1)

theorem joinRoom_notFound (st : ServerState) (sid roomId nickname : String) (rp : Option Int)
    (gw : String → Option Int) (songIdx chartIdx : Nat) (now : Int)
    (h : findRoomById st.rooms roomId = none) :
    joinRoom st sid roomId nickname rp gw songIdx chartIdx now =
      (st, [OutEvent.errorMsg sid "Room does not exist."]) := by
  unfold joinRoom
  rw [h]

theorem joinRoom_reconnect (st : ServerState) (sid roomId nickname : String) (rp : Option Int)
    (gw : String → Option Int) (songIdx chartIdx : Nat) (now : Int) (room : Room)
    (h : findRoomById st.rooms roomId = some room)
    (hrec : room.players.any (fun p => p.nickname == nickname) = true) :
    joinRoom st sid roomId nickname rp gw songIdx chartIdx now =
      ({ st with rooms := (updateFirst (fun r => r.id == roomId)
          (fun _ => reconnectRoom room sid nickname) st.rooms) },
        [OutEvent.roomJoined sid roomId (reconnectRoom room sid nickname)
          (room.hostName == nickname)]) := by
  unfold joinRoom
  rw [h]
  simp only [hrec, if_pos]

theorem joinRoom_full (st : ServerState) (sid roomId nickname : String) (rp : Option Int)
    (gw : String → Option Int) (songIdx chartIdx : Nat) (now : Int) (room : Room)
    (h : findRoomById st.rooms roomId = some room)
    (hrec : room.players.any (fun p => p.nickname == nickname) = false)
    (hfull : room.players.length ≥ 2) :
    joinRoom st sid roomId nickname rp gw songIdx chartIdx now =
      (st, [OutEvent.errorMsg sid "Room is full."]) := by
  unfold joinRoom
  rw [h]
  simp only [hrec, Bool.false_eq_true, if_false, if_pos hfull]

theorem joinRoom_second (st : ServerState) (sid roomId nickname : String) (rp : Option Int)
    (gw : String → Option Int) (songIdx chartIdx : Nat) (now : Int) (room : Room) (p : Player)
    (h : findRoomById st.rooms roomId = some room)
    (hp : room.players = [p])
    (hrec : (p.nickname == nickname) = false) :
    joinRoom st sid roomId nickname rp gw songIdx chartIdx now =
      (⟨(updateFirst (fun r => r.id == roomId)
            (fun _ => startedRoom (joinedRoom room
              (joinedPlayer sid nickname (joinRating rp gw nickname))))
            (updateFirst (fun r => r.id == roomId)
              (fun _ => joinedRoom room (joinedPlayer sid nickname (joinRating rp gw nickname)))
              st.rooms)), st.roomSeq⟩,
        [ OutEvent.roomJoined sid roomId
            (joinedRoom room (joinedPlayer sid nickname (joinRating rp gw nickname))) false,
          OutEvent.playerEntered roomId sid nickname (joinRating rp gw nickname),
          OutEvent.updateRoomList (getRoomList
            (updateFirst (fun r => r.id == roomId)
              (fun _ => joinedRoom room (joinedPlayer sid nickname (joinRating rp gw nickname)))
              st.rooms)),
          OutEvent.gameStart p.socketId
            (startPayload songIdx chartIdx now (startRP gw nickname)),
          OutEvent.gameStart sid
            (startPayload songIdx chartIdx now (startRP gw p.nickname)),
          OutEvent.updateRoomList (getRoomList
            (updateFirst (fun r => r.id == roomId)
              (fun _ => startedRoom (joinedRoom room
                (joinedPlayer sid nickname (joinRating rp gw nickname))))
              (updateFirst (fun r => r.id == roomId)
                (fun _ => joinedRoom room (joinedPlayer sid nickname (joinRating rp gw nickname)))
                st.rooms))) ]) := by
  have h' : st.rooms.find? (fun r => r.id == roomId) = some room := h
  have hid : ((joinedRoom room (joinedPlayer sid nickname (joinRating rp gw nickname))).id
      == roomId) = true := by
    have h2 := List.find?_some h'
    simpa [joinedRoom] using h2
  have hfind1 : (updateFirst (fun r => r.id == roomId)
      (fun _ => joinedRoom room (joinedPlayer sid nickname (joinRating rp gw nickname)))
      st.rooms).find? (fun r => r.id == roomId) =
      some (joinedRoom room (joinedPlayer sid nickname (joinRating rp gw nickname))) :=
    find?_updateFirst h' hid
  simp only [joinedRoom, joinedPlayer, hp, List.singleton_append] at hfind1
  unfold joinRoom
  rw [h]
  simp [hp, hrec, startGameSequence, findRoomById, hfind1, joinedRoom, joinedPlayer,
    startedRoom, startPayload]

theorem gameOver_notFound (st : ServerState) (sid roomId finishType : String)
    (h : findRoomById st.rooms roomId = none) :
    gameOver st sid roomId finishType = (st, []) := by
  unfold gameOver
  rw [h]

theorem gameOver_found (st : ServerState) (sid roomId finishType : String) (room : Room)
    (h : findRoomById st.rooms roomId = some room) :
    gameOver st sid roomId finishType =
      (if (finishedRoom room sid).players.all (fun p => p.finished == true) then
        (⟨(eraseRoomById (updateFirst (fun r => r.id == roomId)
              (fun _ => finishedRoom room sid) st.rooms) roomId), st.roomSeq⟩,
          [ OutEvent.opponentFinished roomId sid finishType,
            OutEvent.updateRoomList (getRoomList
              (eraseRoomById (updateFirst (fun r => r.id == roomId)
                (fun _ => finishedRoom room sid) st.rooms) roomId)) ])
      else
        (⟨(updateFirst (fun r => r.id == roomId)
            (fun _ => finishedRoom room sid) st.rooms), st.roomSeq⟩,
          [OutEvent.opponentFinished roomId sid finishType])) := by
  unfold gameOver
  rw [h]
  rfl

theorem leaveRooms_skip (sid : String) (r : Room) (rs : List Room)
    (h : r.players.any (fun p => p.socketId == sid) = false) :
    leaveRooms sid (r :: rs) = (r :: (leaveRooms sid rs).1, (leaveRooms sid rs).2) := by
  simp [leaveRooms, h]

theorem leaveRooms_playing (sid : String) (r : Room) (rs : List Room)
    (h : r.players.any (fun p => p.socketId == sid) = true)
    (hst : r.status = Status.PLAYING) :
    leaveRooms sid (r :: rs) = (disconnectRoom r sid :: rs, LeaveAction.playing) := by
  simp [leaveRooms, h, hst, disconnectRoom]

theorem leaveRooms_waiting_empty (sid : String) (r : Room) (rs : List Room)
    (h : r.players.any (fun p => p.socketId == sid) = true)
    (hst : r.status = Status.WAITING)
    (hemp : r.players.filter (fun p => ¬(p.socketId == sid)) = []) :
    leaveRooms sid (r :: rs) = (rs, LeaveAction.deleted r.id) := by
  have hst2 : (r.status == Status.PLAYING) = false := by rw [hst]; rfl
  simp only [leaveRooms]
  rw [if_pos h, if_neg (by simp [hst2]), hemp]
  rfl

theorem leaveRooms_waiting_left (sid : String) (r : Room) (rs : List Room)
    (h : r.players.any (fun p => p.socketId == sid) = true)
    (hst : r.status = Status.WAITING)
    (hne : r.players.filter (fun p => ¬(p.socketId == sid)) ≠ []) :
    leaveRooms sid (r :: rs) = (shrunkRoom r sid :: rs, LeaveAction.downgraded r.id) := by
  have hst2 : (r.status == Status.PLAYING) = false := by rw [hst]; rfl
  have hlen : ((r.players.filter (fun p => ¬(p.socketId == sid))).length == 0) = false := by
    simpa [List.length_eq_zero] using hne
  simp only [leaveRooms]
  rw [if_pos h, if_neg (by simp [hst2])]
  simp only [hlen, Bool.false_eq_true, if_false, shrunkRoom]

theorem leaveRooms_passHead (sid : String) (pre rest : List Room)
    (h : ∀ x ∈ pre, x.players.any (fun p => p.socketId == sid) = false) :
    leaveRooms sid (pre ++ rest) =
      (pre ++ (leaveRooms sid rest).1, (leaveRooms sid rest).2) := by
  induction pre with
  | nil => simp
  | cons a as ih =>
    have ha := h a (List.mem_cons_self a as)
    have has : ∀ x ∈ as, x.players.any (fun p => p.socketId == sid) = false :=
      fun x hx => h x (List.mem_cons_of_mem a hx)
    rw [List.cons_append, leaveRooms_skip sid a _ ha, ih has]
    simp

theorem filterConnLenZero (l : List Player) :
    ((l.filter (fun p => p.connected)).length == 0) = !(l.any fun p => p.connected) := by
  induction l with
  | nil => rfl
  | cons a as ih =>
    by_cases ha : a.connected = true
    · simp [ha]
    · have ha' : a.connected = false := by simpa using ha
      simp [ha', ih]

theorem sweepAux_fst (processed l : List Room) :
    (sweepAux processed l).1 =
      processed ++ l.filter (fun r => r.players.any (fun p => p.connected)) := by
  induction l generalizing processed with
  | nil => simp [sweepAux]
  | cons r rs ih =>
    by_cases hc : (r.players.any fun p => p.connected) = true
    · have hz : ((r.players.filter (fun p => p.connected)).length == 0) = false := by
        rw [filterConnLenZero, hc]
        rfl
      simp [sweepAux, hz, ih, hc]
    · have hc' : (r.players.any fun p => p.connected) = false := by simpa using hc
      have hz : ((r.players.filter (fun p => p.connected)).length == 0) = true := by
        rw [filterConnLenZero, hc']
        rfl
      simp [sweepAux, hz, ih, hc']

theorem sweepAux_snd_length (processed l : List Room) :
    (sweepAux processed l).2.length =
      (l.filter (fun r => !(r.players.any fun p => p.connected))).length := by
  induction l generalizing processed with
  | nil => simp [sweepAux]
  | cons r rs ih =>
    by_cases hc : (r.players.any fun p => p.connected) = true
    · have hz : ((r.players.filter (fun p => p.connected)).length == 0) = false := by
        rw [filterConnLenZero, hc]
        rfl
      simp [sweepAux, hz, ih, hc]
    · have hc' : (r.players.any fun p => p.connected) = false := by simpa using hc
      have hz : ((r.players.filter (fun p => p.connected)).length == 0) = true := by
        rw [filterConnLenZero, hc']
        rfl
      simp [sweepAux, hz, ih, hc']

theorem sweepAux_snd_shape (processed l : List Room) :
    ∀ e ∈ (sweepAux processed l).2, ∃ L, e = OutEvent.updateRoomList L := by
  induction l generalizing processed with
  | nil => intro e he; simp [sweepAux] at he
  | cons r rs ih =>
    intro e he
    by_cases hz : ((r.players.filter (fun p => p.connected)).length == 0) = true
    · simp only [sweepAux, hz, if_pos, List.mem_cons] at he
      rcases he with he | he
      · exact ⟨_, he⟩
      · exact ih _ e he
    · have hz' : ((r.players.filter (fun p => p.connected)).length == 0) = false := by
        simpa using hz
      simp only [sweepAux, hz', Bool.false_eq_true, if_false] at he
      exact ih _ e he

theorem handleLeave_playing (st : ServerState) (sid : String) (pre post : List Room) (r : Room)
    (hsplit : st.rooms = pre ++ r :: post)
    (hpre : ∀ x ∈ pre, x.players.any (fun p => p.socketId == sid) = false)
    (hr : r.players.any (fun p => p.socketId == sid) = true)
    (hst : r.status = Status.PLAYING) :
    handleLeave st sid = (⟨pre ++ disconnectRoom r sid :: post, st.roomSeq⟩, []) := by
  unfold handleLeave
  rw [hsplit, leaveRooms_passHead sid pre _ hpre, leaveRooms_playing sid r post hr hst]

theorem handleLeave_waiting_empty (st : ServerState) (sid : String)
    (pre post : List Room) (r : Room)
    (hsplit : st.rooms = pre ++ r :: post)
    (hpre : ∀ x ∈ pre, x.players.any (fun p => p.socketId == sid) = false)
    (hr : r.players.any (fun p => p.socketId == sid) = true)
    (hst : r.status = Status.WAITING)
    (hemp : r.players.filter (fun p => ¬(p.socketId == sid)) = []) :
    handleLeave st sid = (⟨pre ++ post, st.roomSeq⟩,
      [OutEvent.updateRoomList (getRoomList (pre ++ post))]) := by
  unfold handleLeave
  rw [hsplit, leaveRooms_passHead sid pre _ hpre,
    leaveRooms_waiting_empty sid r post hr hst hemp]

theorem handleLeave_waiting_left (st : ServerState) (sid : String)
    (pre post : List Room) (r : Room)
    (hsplit : st.rooms = pre ++ r :: post)
    (hpre : ∀ x ∈ pre, x.players.any (fun p => p.socketId == sid) = false)
    (hr : r.players.any (fun p => p.socketId == sid) = true)
    (hst : r.status = Status.WAITING)
    (hne : r.players.filter (fun p => ¬(p.socketId == sid)) ≠ []) :
    handleLeave st sid = (⟨pre ++ shrunkRoom r sid :: post, st.roomSeq⟩,
      [ OutEvent.opponentLeft r.id,
        OutEvent.updateRoomList (getRoomList (pre ++ shrunkRoom r sid :: post)) ]) := by
  unfold handleLeave
  rw [hsplit, leaveRooms_passHead sid pre _ hpre,
    leaveRooms_waiting_left sid r post hr hst hne]

/-! ### C1 invariant lemmas -/

theorem roomSizeInv_create (st : ServerState) (sid title nickname : String)
    (gw : String → Option Int) (h : roomSizeInv st) :
    roomSizeInv (createRoom st sid title nickname gw).1 := by
  intro r hr
  simp only [createRoom] at hr
  rcases mem_putRoom hr with h1 | h1
  · exact h r h1
  · subst h1
    exact ⟨Or.inl rfl, by intro hst; simp at hst⟩

theorem roomSizeInv_quick (st : ServerState) (sid nickname : String) (rp : Option Int)
    (gw : String → Option Int) (h : roomSizeInv st) :
    roomSizeInv (quickMatch st sid nickname rp gw).1 := by
  unfold quickMatch
  cases hf : st.rooms.find? (fun r => r.status == Status.WAITING && r.players.length < 2) with
  | some availableRoom => exact h
  | none =>
    intro r hr
    simp only at hr
    rcases mem_putRoom hr with h1 | h1
    · exact h r h1
    · subst h1
      exact ⟨Or.inl rfl, by intro hst; simp at hst⟩

theorem roomSizeInv_sendScore (st : ServerState) (sid roomId : String)
    (h : roomSizeInv st) : roomSizeInv (sendScore st sid roomId).1 := h

theorem roomSizeInv_join (st : ServerState) (sid roomId nickname : String) (rp : Option Int)
    (gw : String → Option Int) (songIdx chartIdx : Nat) (now : Int)
    (h : roomSizeInv st) :
    roomSizeInv (joinRoom st sid roomId nickname rp gw songIdx chartIdx now).1 := by
  cases hf : findRoomById st.rooms roomId with
  | none => rw [joinRoom_notFound st sid roomId nickname rp gw songIdx chartIdx now hf]; exact h
  | some room =>
    have hroom : room ∈ st.rooms := List.mem_of_find?_eq_some hf
    have hinv := h room hroom
    by_cases hrec : room.players.any (fun p => p.nickname == nickname) = true
    · rw [joinRoom_reconnect st sid roomId nickname rp gw songIdx chartIdx now room hf hrec]
      intro r hr
      simp only at hr
      rcases mem_updateFirst hr with h1 | ⟨x, _, hy⟩
      · exact h r h1
      · subst hy
        refine ⟨?_, ?_⟩
        · simpa [reconnectRoom, updateFirst_length] using hinv.1
        · intro hps
          simpa [reconnectRoom, updateFirst_length] using hinv.2 hps
    · have hrec' : room.players.any (fun p => p.nickname == nickname) = false := by
        simpa using hrec
      rcases hinv.1 with hlen1 | hlen2
      · rcases List.length_eq_one.mp hlen1 with ⟨p, hp⟩
        have hpn : (p.nickname == nickname) = false := by
          rw [hp] at hrec'
          simpa using hrec'
        rw [joinRoom_second st sid roomId nickname rp gw songIdx chartIdx now room p hf hp hpn]
        intro r hr
        simp only at hr
        rcases mem_updateFirst hr with h1 | ⟨x, _, hy⟩
        · rcases mem_updateFirst h1 with h2 | ⟨x2, _, hy2⟩
          · exact h r h2
          · subst hy2
            refine ⟨Or.inr ?_, fun _ => ?_⟩ <;>
              simp [joinedRoom, joinedPlayer, hp]
        · subst hy
          refine ⟨Or.inr ?_, fun _ => ?_⟩ <;>
            simp [startedRoom, joinedRoom, joinedPlayer, hp]
      · have hfull : room.players.length ≥ 2 := by omega
        rw [joinRoom_full st sid roomId nickname rp gw songIdx chartIdx now room hf hrec' hfull]
        exact h

theorem roomSizeInv_gameOver (st : ServerState) (sid roomId finishType : String)
    (h : roomSizeInv st) : roomSizeInv (gameOver st sid roomId finishType).1 := by
  cases hf : findRoomById st.rooms roomId with
  | none => rw [gameOver_notFound st sid roomId finishType hf]; exact h
  | some room =>
    have hroom : room ∈ st.rooms := List.mem_of_find?_eq_some hf
    have hinv := h room hroom
    have hmidRoom : invRoom (finishedRoom room sid) := by
      refine ⟨?_, ?_⟩
      · simpa [finishedRoom, updateFirst_length] using hinv.1
      · intro hps
        simpa [finishedRoom, updateFirst_length] using hinv.2 hps
    rw [gameOver_found st sid roomId finishType room hf]
    by_cases hall : ((finishedRoom room sid).players.all (fun p => p.finished == true)) = true
    · rw [if_pos hall]
      intro r hr
      simp only at hr
      have hr2 := mem_eraseFirst hr
      rcases mem_updateFirst hr2 with h1 | ⟨x, _, hy⟩
      · exact h r h1
      · subst hy
        exact hmidRoom
    · rw [if_neg hall]
      intro r hr
      simp only at hr
      rcases mem_updateFirst hr with h1 | ⟨x, _, hy⟩
      · exact h r h1
      · subst hy
        exact hmidRoom

theorem leaveRooms_invRoom (sid : String) (rooms : List Room)
    (h : ∀ r ∈ rooms, invRoom r) :
    ∀ y ∈ (leaveRooms sid rooms).1, invRoom y := by
  induction rooms with
  | nil => intro y hy; simp [leaveRooms] at hy
  | cons r rs ih =>
    have hr := h r (List.mem_cons_self r rs)
    have hrs : ∀ x ∈ rs, invRoom x := fun x hx => h x (List.mem_cons_of_mem r hx)
    intro y hy
    by_cases hmem : r.players.any (fun p => p.socketId == sid) = true
    · cases hst : r.status with
      | PLAYING =>
        rw [leaveRooms_playing sid r rs hmem hst] at hy
        rcases List.mem_cons.mp hy with hy | hy
        · subst hy
          refine ⟨?_, ?_⟩
          · simpa [disconnectRoom, updateFirst_length] using hr.1
          · intro hps
            simpa [disconnectRoom, updateFirst_length] using hr.2 hps
        · exact hrs y hy
      | WAITING =>
        by_cases hemp : r.players.filter (fun p => ¬(p.socketId == sid)) = []
        · rw [leaveRooms_waiting_empty sid r rs hmem hst hemp] at hy
          exact hrs y hy
        · rw [leaveRooms_waiting_left sid r rs hmem hst hemp] at hy
          rcases List.mem_cons.mp hy with hy | hy
          · subst hy
            have hub : r.players.length ≤ 2 := by
              rcases hr.1 with h1 | h1 <;> omega
            have hle : (r.players.filter (fun p => ¬(p.socketId == sid))).length ≤
                r.players.length := List.length_filter_le _ _
            have hpos : (r.players.filter (fun p => ¬(p.socketId == sid))).length ≠ 0 := by
              simpa [List.length_eq_zero] using hemp
            refine ⟨?_, ?_⟩
            · simp only [shrunkRoom]
              omega
            · intro hps
              simp [shrunkRoom] at hps
          · exact hrs y hy
    · have hmem' : r.players.any (fun p => p.socketId == sid) = false := by simpa using hmem
      rw [leaveRooms_skip sid r rs hmem'] at hy
      rcases List.mem_cons.mp hy with hy | hy
      · subst hy; exact hr
      · exact ih hrs y hy

theorem roomSizeInv_leave (st : ServerState) (sid : String)
    (h : roomSizeInv st) : roomSizeInv (handleLeave st sid).1 := by
  unfold handleLeave
  have hmain := leaveRooms_invRoom sid st.rooms h
  cases (leaveRooms sid st.rooms).2 with
  | noRoom => exact hmain
  | playing => exact hmain
  | deleted rid => exact hmain
  | downgraded rid => exact hmain

theorem roomSizeInv_startGame (st : ServerState) (roomId : String)
    (gw : String → Option Int) (songIdx chartIdx : Nat) (now : Int)
    (h : roomSizeInv st)
    (h2 : ∀ r, findRoomById st.rooms roomId = some r → r.players.length = 2) :
    roomSizeInv (startGameSequence st roomId gw songIdx chartIdx now).1 := by
  unfold startGameSequence
  cases hf : findRoomById st.rooms roomId with
  | none => exact h
  | some room =>
    intro r hr
    simp only at hr
    rcases mem_updateFirst hr with h1 | ⟨x, _, hy⟩
    · exact h r h1
    · subst hy
      have hl := h2 room hf
      exact ⟨Or.inr hl, fun _ => hl⟩

theorem roomSizeInv_sweep (st : ServerState) (h : roomSizeInv st) :
    roomSizeInv (sweep st).1 := by
  unfold sweep
  intro r hr
  simp only [sweepAux_fst, List.nil_append] at hr
  exact h r (List.mem_of_mem_filter hr)

theorem roomSizeInv_reachable (st : ServerState) (h : Reachable st) :
    roomSizeInv st := by
  induction h with
  | init => intro r hr; simp [initialState] at hr
  | create st sid title nickname gw _ ih => exact roomSizeInv_create st sid title nickname gw ih
  | join st sid roomId nickname rp gw songIdx chartIdx now _ ih =>
    exact roomSizeInv_join st sid roomId nickname rp gw songIdx chartIdx now ih
  | quick st sid nickname rp gw _ ih => exact roomSizeInv_quick st sid nickname rp gw ih
  | finish st sid roomId finishType _ ih => exact roomSizeInv_gameOver st sid roomId finishType ih
  | score st sid roomId _ ih => exact roomSizeInv_sendScore st sid roomId ih
  | leave st sid _ ih => exact roomSizeInv_leave st sid ih
  | reap st _ ih => exact roomSizeInv_sweep st ih

/-! ### Claim theorems -/

/-- Claim C1: in every reachable registry state, every room has exactly 1
or 2 entries in its players list, and every PLAYING room has exactly 2;
no handler or reaper tick leaves a 0-player room or an underfull PLAYING
room in the registry. -/
theorem claim_C1 (st : ServerState) (h : Reachable st) : roomSizeInv st :=
  roomSizeInv_reachable st h

/-- Witness for C1: the reachability hypothesis is satisfiable; the
invariant holds at the concrete state reached by one `create_room`. -/
theorem claim_C1_witness :
    roomSizeInv (createRoom initialState "s1" "Room" "Alice" (fun _ => none)).1 :=
  claim_C1 _ (Reachable.create initialState "s1" "Room" "Alice" (fun _ => none) Reachable.init)

/-- Claim C6: `join_room` on an unknown room id replies `error_msg`
`"Room does not exist."` to the sender only with the registry unchanged,
and on a full room (2 players, none with the sender's nickname) replies
`error_msg` `"Room is full."` to the sender only with the registry
unchanged; in both cases nothing is mutated and nothing is broadcast. -/
theorem claim_C6 (st : ServerState) (sid roomId nickname : String) (rp : Option Int)
    (gw : String → Option Int) (songIdx chartIdx : Nat) (now : Int) :
    (findRoomById st.rooms roomId = none →
      joinRoom st sid roomId nickname rp gw songIdx chartIdx now =
        (st, [OutEvent.errorMsg sid "Room does not exist."])) ∧
    (∀ room, findRoomById st.rooms roomId = some room →
      (∀ q ∈ room.players, (q.nickname == nickname) = false) →
      room.players.length ≥ 2 →
      joinRoom st sid roomId nickname rp gw songIdx chartIdx now =
        (st, [OutEvent.errorMsg sid "Room is full."])) := by
  constructor
  · intro h
    exact joinRoom_notFound st sid roomId nickname rp gw songIdx chartIdx now h
  · intro room h hq hfull
    have hrec : room.players.any (fun p => p.nickname == nickname) = false := by
      rw [List.any_eq_false]
      intro q hqq
      simp [hq q hqq]
    exact joinRoom_full st sid roomId nickname rp gw songIdx chartIdx now room h hrec hfull

/-- Witness for C6: both error branches fire on a concrete registry. -/
theorem claim_C6_witness :
    (joinRoom ⟨[], 1⟩ "s9" "room_1" "Eve" none gwNone 0 0 0 =
      (⟨[], 1⟩, [OutEvent.errorMsg "s9" "Room does not exist."])) ∧
    (joinRoom stF "s9" "room_1" "Eve" none gwNone 0 0 0 =
      (stF, [OutEvent.errorMsg "s9" "Room is full."])) := by
  constructor
  · exact (claim_C6 ⟨[], 1⟩ "s9" "room_1" "Eve" none gwNone 0 0 0).1 rfl
  · exact (claim_C6 stF "s9" "room_1" "Eve" none gwNone 0 0 0).2 roomF (by decide)
      (by decide) (by decide)

/-- Claim C7, part of the proof kit: `quick_match` either points the sender
at the first joinable room or creates a fresh room, never joining. -/
theorem claim_C7 (st : ServerState) (sid nickname : String) (rp : Option Int)
    (gw : String → Option Int) :
    (∀ room, st.rooms.find? (fun r => r.status == Status.WAITING && r.players.length < 2)
        = some room →
      quickMatch st sid nickname rp gw = (st, [OutEvent.quickMatchFound sid room.id])) ∧
    (st.rooms.find? (fun r => r.status == Status.WAITING && r.players.length < 2) = none →
      (∀ r ∈ st.rooms, (r.id == "room_" ++ toString st.roomSeq) = false) →
      quickMatch st sid nickname rp gw =
        (⟨st.rooms ++ [quickRoom st sid nickname (joinRating rp gw nickname)], st.roomSeq + 1⟩,
          [ OutEvent.roomJoined sid ("room_" ++ toString st.roomSeq)
              (quickRoom st sid nickname (joinRating rp gw nickname)) true,
            OutEvent.updateRoomList (getRoomList
              (st.rooms ++ [quickRoom st sid nickname (joinRating rp gw nickname)])) ])) := by
  constructor
  · intro room h
    unfold quickMatch
    rw [h]
  · intro h hfresh
    have hany : (st.rooms.any (fun r => r.id == "room_" ++ toString st.roomSeq)) = false := by
      rw [List.any_eq_false]
      intro r hr
      simp [hfresh r hr]
    unfold quickMatch
    rw [h]
    simp only [putRoom, quickRoom, joinedPlayer, hany, Bool.false_eq_true, if_false]

/-- Witness for C7: on a registry with one waiting room, `quick_match`
replies `quick_match_found`; on an empty registry it creates the room. -/
theorem claim_C7_witness :
    (quickMatch stW "s2" "Bob" none gwNone =
      (stW, [OutEvent.quickMatchFound "s2" "room_1"])) ∧
    (quickMatch ⟨[], 1⟩ "s2" "Bob" none gwNone =
      (⟨[quickRoom ⟨[], 1⟩ "s2" "Bob" 1000], 2⟩,
        [ OutEvent.roomJoined "s2" "room_1" (quickRoom ⟨[], 1⟩ "s2" "Bob" 1000) true,
          OutEvent.updateRoomList (getRoomList [quickRoom ⟨[], 1⟩ "s2" "Bob" 1000]) ])) := by
  constructor
  · exact (claim_C7 stW "s2" "Bob" none gwNone).1 roomW (by decide)
  · exact (claim_C7 ⟨[], 1⟩ "s2" "Bob" none gwNone).2 rfl (by decide)

theorem map_updateFirst {α β : Type} {p : α → Bool} {f : α → α} {g : α → β} (l : List α)
    (hg : ∀ x, g (f x) = g x) : (updateFirst p f l).map g = l.map g := by
  induction l with
  | nil => rfl
  | cons a as ih =>
    by_cases hpa : p a = true
    · simp [updateFirst, hpa, hg]
    · simp [updateFirst, hpa, ih]

/-- Claim C3: a `join_room` whose nickname already names a player of the
room is a reconnect, whatever the room status and player count: the result
is exactly one `room_joined` unicast to the sender, the registry room is
replaced by its reconnect image, and that image preserves player count,
nickname order and status while pointing the matched player at the new
socket with `connected = true`. -/
theorem claim_C3 (st : ServerState) (sid roomId nickname : String) (rp : Option Int)
    (gw : String → Option Int) (songIdx chartIdx : Nat) (now : Int) (room : Room)
    (h : findRoomById st.rooms roomId = some room)
    (hrec : room.players.any (fun p => p.nickname == nickname) = true) :
    (joinRoom st sid roomId nickname rp gw songIdx chartIdx now =
      ({ st with rooms := (updateFirst (fun r => r.id == roomId)
          (fun _ => reconnectRoom room sid nickname) st.rooms) },
        [OutEvent.roomJoined sid roomId (reconnectRoom room sid nickname)
          (room.hostName == nickname)])) ∧
    (reconnectRoom room sid nickname).players.length = room.players.length ∧
    (reconnectRoom room sid nickname).players.map (fun p => p.nickname) =
      room.players.map (fun p => p.nickname) ∧
    (reconnectRoom room sid nickname).status = room.status ∧
    (∀ q, room.players.find? (fun p => p.nickname == nickname) = some q →
      (reconnectRoom room sid nickname).players.find? (fun p => p.nickname == nickname) =
        some ⟨sid, q.nickname, q.rating, q.ready, true, q.finished⟩) := by
  refine ⟨joinRoom_reconnect st sid roomId nickname rp gw songIdx chartIdx now room h hrec,
    updateFirst_length _ _ _, map_updateFirst _ (fun x => rfl), rfl, ?_⟩
  intro q hq
  have hqn := List.find?_some hq
  have hqn2 : ((fun p : Player => p.nickname == nickname)
      { q with socketId := sid, connected := true }) = true := hqn
  exact find?_updateFirst (p := fun p : Player => p.nickname == nickname)
    (f := fun p => { p with socketId := sid, connected := true }) hq hqn2

/-- Witness for C3: in a PLAYING 2-player room, player A rejoining from a
new socket is handled as a reconnect. -/
theorem claim_C3_witness :
    joinRoom stP "s9" "room_1" "A" none gwNone 0 0 0 =
      ({ stP with rooms := (updateFirst (fun r => r.id == "room_1")
          (fun _ => reconnectRoom roomP "s9" "A") stP.rooms) },
        [OutEvent.roomJoined "s9" "room_1" (reconnectRoom roomP "s9" "A")
          (roomP.hostName == "A")]) :=
  (claim_C3 stP "s9" "room_1" "A" none gwNone 0 0 0 roomP (by decide) (by decide)).1

/-- Claim C2: a `join_room` that takes a room from 1 to 2 players fires
the start sequence exactly once: among the emitted events are exactly two
`game_start` unicasts, one to each player's socket, both with the same
song fields, the same chart-derived `diffKey`, and `startTime = now +
21000`, and with swapped opponent ratings (host gets the joiner's rating,
joiner gets the host's, each defaulting to 1000 when the gateway has no
profile); the registry room ends PLAYING with 2 players. -/
theorem claim_C2 (st : ServerState) (sid roomId nickname : String) (rp : Option Int)
    (gw : String → Option Int) (songIdx chartIdx : Nat) (now : Int) (room : Room) (p : Player)
    (h : findRoomById st.rooms roomId = some room)
    (hp : room.players = [p])
    (hne : (p.nickname == nickname) = false) :
    ((joinRoom st sid roomId nickname rp gw songIdx chartIdx now).2.filter isGameStart =
      [ OutEvent.gameStart p.socketId (startPayload songIdx chartIdx now (startRP gw nickname)),
        OutEvent.gameStart sid (startPayload songIdx chartIdx now (startRP gw p.nickname)) ]) ∧
    (findRoomById (joinRoom st sid roomId nickname rp gw songIdx chartIdx now).1.rooms roomId =
      some (startedRoom (joinedRoom room (joinedPlayer sid nickname (joinRating rp gw nickname))))) ∧
    ((startedRoom (joinedRoom room (joinedPlayer sid nickname
        (joinRating rp gw nickname)))).status = Status.PLAYING) ∧
    ((startedRoom (joinedRoom room (joinedPlayer sid nickname
        (joinRating rp gw nickname)))).players.length = 2) ∧
    ((startPayload songIdx chartIdx now (startRP gw nickname)).startTime = now + 21000) ∧
    (∀ n, gw n = none → startRP gw n = 1000) := by
  have h' : st.rooms.find? (fun r => r.id == roomId) = some room := h
  have heq := joinRoom_second st sid roomId nickname rp gw songIdx chartIdx now room p h hp hne
  have hidJ : ((joinedRoom room (joinedPlayer sid nickname (joinRating rp gw nickname))).id
      == roomId) = true := by
    have h2 := List.find?_some h'
    simpa [joinedRoom] using h2
  have hfind1 : (updateFirst (fun r => r.id == roomId)
      (fun _ => joinedRoom room (joinedPlayer sid nickname (joinRating rp gw nickname)))
      st.rooms).find? (fun r => r.id == roomId) =
      some (joinedRoom room (joinedPlayer sid nickname (joinRating rp gw nickname))) :=
    find?_updateFirst h' hidJ
  have hidS : ((startedRoom (joinedRoom room (joinedPlayer sid nickname
      (joinRating rp gw nickname)))).id == roomId) = true := hidJ
  have hfind2 : (updateFirst (fun r => r.id == roomId)
      (fun _ => startedRoom (joinedRoom room (joinedPlayer sid nickname
        (joinRating rp gw nickname))))
      (updateFirst (fun r => r.id == roomId)
        (fun _ => joinedRoom room (joinedPlayer sid nickname (joinRating rp gw nickname)))
        st.rooms)).find? (fun r => r.id == roomId) =
      some (startedRoom (joinedRoom room (joinedPlayer sid nickname
        (joinRating rp gw nickname)))) :=
    find?_updateFirst hfind1 hidS
  refine ⟨?_, ?_, rfl, ?_, rfl, ?_⟩
  · rw [heq]
    simp [isGameStart]
  · rw [heq]
    exact hfind2
  · simp [startedRoom, joinedRoom, joinedPlayer, hp]
  · intro n hn
    simp [startRP, hn]

/-- Witness for C2: Bob joining Alice's one-player room yields exactly the
two `game_start` unicasts with swapped (default) ratings. -/
theorem claim_C2_witness :
    (joinRoom stW "s2" "room_1" "B" none gwNone 0 0 500).2.filter isGameStart =
      [ OutEvent.gameStart hostP.socketId (startPayload 0 0 500 (startRP gwNone "B")),
        OutEvent.gameStart "s2" (startPayload 0 0 500 (startRP gwNone hostP.nickname)) ] :=
  (claim_C2 stW "s2" "room_1" "B" none gwNone 0 0 500 roomW hostP
    (by decide) (by decide) (by decide)).1

/-- Claim C5: `leave_room`/`disconnect` of a connection whose first
containing room is `r`: if `r` is PLAYING the player entry stays with only
`connected` cleared (status, count and all other fields unchanged, no
events); if `r` is WAITING the entry is removed — when this empties the
room it is deleted with a lobby broadcast, otherwise the survivor room is
reset to WAITING and `opponent_left` is sent before the broadcast. -/
theorem claim_C5 (st : ServerState) (sid : String) (pre post : List Room) (r : Room)
    (hsplit : st.rooms = pre ++ r :: post)
    (hpre : ∀ x ∈ pre, x.players.any (fun p => p.socketId == sid) = false)
    (hr : r.players.any (fun p => p.socketId == sid) = true) :
    (r.status = Status.PLAYING →
      handleLeave st sid = (⟨pre ++ disconnectRoom r sid :: post, st.roomSeq⟩, []) ∧
      (disconnectRoom r sid).status = r.status ∧
      (disconnectRoom r sid).players.length = r.players.length ∧
      (disconnectRoom r sid).players.map
          (fun p => (p.socketId, p.nickname, p.rating, p.ready, p.finished)) =
        r.players.map (fun p => (p.socketId, p.nickname, p.rating, p.ready, p.finished))) ∧
    (r.status = Status.WAITING →
      r.players.filter (fun p => ¬(p.socketId == sid)) = [] →
      handleLeave st sid = (⟨pre ++ post, st.roomSeq⟩,
        [OutEvent.updateRoomList (getRoomList (pre ++ post))])) ∧
    (r.status = Status.WAITING →
      r.players.filter (fun p => ¬(p.socketId == sid)) ≠ [] →
      (handleLeave st sid = (⟨pre ++ shrunkRoom r sid :: post, st.roomSeq⟩,
        [ OutEvent.opponentLeft r.id,
          OutEvent.updateRoomList (getRoomList (pre ++ shrunkRoom r sid :: post)) ])) ∧
      (shrunkRoom r sid).status = Status.WAITING) := by
  refine ⟨?_, ?_, ?_⟩
  · intro hst
    exact ⟨handleLeave_playing st sid pre post r hsplit hpre hr hst, rfl,
      updateFirst_length _ _ _, map_updateFirst _ (fun x => rfl)⟩
  · intro hst hemp
    exact handleLeave_waiting_empty st sid pre post r hsplit hpre hr hst hemp
  · intro hst hne
    exact ⟨handleLeave_waiting_left st sid pre post r hsplit hpre hr hst hne, rfl⟩

/-- Witness for C5: a disconnect in a 2-player PLAYING room only clears
the guest's `connected` flag and emits nothing. -/
theorem claim_C5_witness :
    handleLeave stP "s2" = (⟨[] ++ disconnectRoom roomP "s2" :: [], stP.roomSeq⟩, []) :=
  ((claim_C5 stP "s2" [] [] roomP rfl (by intro x hx; simp at hx) (by decide)).1 rfl).1

theorem map_updateFirst_of_pos {α β : Type} {p : α → Bool} {f : α → α} {g : α → β}
    (l : List α) (hg : ∀ x, p x = true → g (f x) = g x) :
    (updateFirst p f l).map g = l.map g := by
  induction l with
  | nil => rfl
  | cons a as ih =>
    by_cases hpa : p a = true
    · simp [updateFirst, hpa, hg a hpa]
    · simp [updateFirst, hpa, ih]

theorem mem_updateFirst_of_neg {α : Type} {p : α → Bool} {f : α → α} {l : List α} {x : α}
    (hx : x ∈ l) (hpx : p x = false) : x ∈ updateFirst p f l := by
  induction l with
  | nil => simp at hx
  | cons a as ih =>
    rcases List.mem_cons.mp hx with hx1 | hx1
    · subst hx1
      simp [updateFirst, hpx]
    · by_cases hpa : p a = true
      · simp [updateFirst, hpa, List.mem_cons_of_mem _ hx1]
      · simp only [updateFirst, if_neg hpa]
        exact List.mem_cons_of_mem a (ih hx1)

theorem find?_eraseFirst_id_none {l : List Room} {rid : String}
    (hnd : (l.map (fun r => r.id)).Nodup) :
    (eraseFirst (fun r => r.id == rid) l).find? (fun r => r.id == rid) = none := by
  induction l with
  | nil => rfl
  | cons a as ih =>
    rw [List.map_cons] at hnd
    obtain ⟨hna, hnd2⟩ := List.nodup_cons.mp hnd
    by_cases hpa : (a.id == rid) = true
    · simp only [eraseFirst, if_pos hpa]
      rw [List.find?_eq_none]
      intro x hx hxr
      have hxid : x.id = rid := by simpa using hxr
      have haid : a.id = rid := by simpa using hpa
      exact hna (by rw [haid, ← hxid]; exact List.mem_map_of_mem _ hx)
    · simp only [eraseFirst, if_neg hpa]
      have hstep := List.find?_cons_of_neg (p := fun r : Room => r.id == rid) (a := a)
        (eraseFirst (fun r => r.id == rid) as) hpa
      rw [hstep]
      exact ih hnd2

/-- Claim C8: `game_over` on an existing room emits `opponent_finished`
with the finish type to the rest of the room (first event), records the
sender's `finished = true` regardless of its `connected` flag, and deletes
the room followed by a lobby broadcast exactly when every player of the
room is now finished; while a second unfinished player remains, the room
survives. -/
theorem claim_C8 (st : ServerState) (sid roomId finishType : String) (room : Room) (q : Player)
    (h : findRoomById st.rooms roomId = some room)
    (hq : room.players.find? (fun p => p.socketId == sid) = some q)
    (hnd : (st.rooms.map (fun r => r.id)).Nodup) :
    ((gameOver st sid roomId finishType).2.head? =
      some (OutEvent.opponentFinished roomId sid finishType)) ∧
    ((finishedRoom room sid).players.find? (fun p => p.socketId == sid) =
      some ⟨q.socketId, q.nickname, q.rating, q.ready, q.connected, true⟩) ∧
    ((findRoomById (gameOver st sid roomId finishType).1.rooms roomId = none) ↔
      ((finishedRoom room sid).players.all (fun p => p.finished == true) = true)) ∧
    ((finishedRoom room sid).players.all (fun p => p.finished == true) = true →
      (gameOver st sid roomId finishType).2 =
        [ OutEvent.opponentFinished roomId sid finishType,
          OutEvent.updateRoomList (getRoomList (eraseRoomById
            (updateFirst (fun r => r.id == roomId) (fun _ => finishedRoom room sid)
              st.rooms) roomId)) ]) ∧
    ((finishedRoom room sid).players.all (fun p => p.finished == true) = false →
      (gameOver st sid roomId finishType).2 =
        [OutEvent.opponentFinished roomId sid finishType]) ∧
    ((∃ q2 ∈ room.players, (q2.socketId == sid) = false ∧ q2.finished = false) →
      findRoomById (gameOver st sid roomId finishType).1.rooms roomId ≠ none) := by
  have h' : st.rooms.find? (fun r => r.id == roomId) = some room := h
  have hidF : ((finishedRoom room sid).id == roomId) = true := by
    have h2 := List.find?_some h'
    simpa [finishedRoom] using h2
  have hfindF : (updateFirst (fun r => r.id == roomId) (fun _ => finishedRoom room sid)
      st.rooms).find? (fun r => r.id == roomId) = some (finishedRoom room sid) :=
    find?_updateFirst h' hidF
  have hids : ((updateFirst (fun r => r.id == roomId) (fun _ => finishedRoom room sid)
      st.rooms).map (fun r => r.id)).Nodup := by
    rw [map_updateFirst_of_pos]
    · exact hnd
    · intro x hx
      have hxid : x.id = roomId := by simpa using hx
      have hrid : room.id = roomId := by simpa using List.find?_some h'
      simp [finishedRoom, hrid, hxid]
  have hb : (finishedRoom room sid).players.find? (fun p => p.socketId == sid) =
      some ⟨q.socketId, q.nickname, q.rating, q.ready, q.connected, true⟩ := by
    have hqn := List.find?_some hq
    have hqn2 : ((fun p : Player => p.socketId == sid) { q with finished := true }) = true := hqn
    exact find?_updateFirst (p := fun p : Player => p.socketId == sid)
      (f := fun p => { p with finished := true }) hq hqn2
  have heq := gameOver_found st sid roomId finishType room h
  by_cases hall : ((finishedRoom room sid).players.all (fun p => p.finished == true)) = true
  · rw [heq, if_pos hall]
    refine ⟨rfl, hb, ?_, fun _ => rfl, ?_, ?_⟩
    · constructor
      · intro _; exact hall
      · intro _
        exact find?_eraseFirst_id_none hids
    · intro hfalse
      rw [hall] at hfalse
      cases hfalse
    · intro ⟨q2, hq2, hq2s, hq2f⟩
      have hmem : q2 ∈ (finishedRoom room sid).players :=
        mem_updateFirst_of_neg hq2 hq2s
      have : (finishedRoom room sid).players.all (fun p => p.finished == true) = false := by
        rw [List.all_eq_false]
        exact ⟨q2, hmem, by simp [hq2f]⟩
      rw [hall] at this
      cases this
  · have hall' : ((finishedRoom room sid).players.all (fun p => p.finished == true)) = false := by
      simpa using hall
    rw [heq, if_neg hall]
    refine ⟨rfl, hb, ?_, ?_, fun _ => rfl, ?_⟩
    · constructor
      · intro hnone
        simp only [findRoomById] at hnone
        rw [hfindF] at hnone
        cases hnone
      · intro htrue
        rw [htrue] at hall'
        cases hall'
    · intro htrue
      rw [htrue] at hall'
      cases hall'
    · intro _
      simp only [findRoomById]
      rw [hfindF]
      simp

/-- Witness for C8: in the 2-player PLAYING room, host A's `game_over`
marks A finished but keeps the room (B is unfinished). -/
theorem claim_C8_witness :
    ((finishedRoom roomP "s1").players.find? (fun p => p.socketId == "s1") =
      some ⟨"s1", "A", 1000, true, true, true⟩) ∧
    ((findRoomById (gameOver stP "s1" "room_1" "CLEAR").1.rooms "room_1" = none) ↔
      ((finishedRoom roomP "s1").players.all (fun p => p.finished == true) = true)) := by
  have h := claim_C8 stP "s1" "room_1" "CLEAR" roomP hostP (by decide) (by decide) (by decide)
  exact ⟨h.2.1, h.2.2.1⟩

/-- Claim C10: `game_over` is not gated on status or player count — the
sole occupant of a single-player WAITING room who sends `game_over` makes
every player finished, so the room is deleted on the spot (with the lobby
broadcast), without ever having been PLAYING. -/
theorem claim_C10 (st : ServerState) (sid roomId finishType : String) (room : Room) (q : Player)
    (h : findRoomById st.rooms roomId = some room)
    (hq : room.players = [q])
    (hsid : (q.socketId == sid) = true)
    (_hst : room.status = Status.WAITING)
    (hnd : (st.rooms.map (fun r => r.id)).Nodup) :
    (gameOver st sid roomId finishType =
      (⟨(eraseRoomById (updateFirst (fun r => r.id == roomId)
          (fun _ => finishedRoom room sid) st.rooms) roomId), st.roomSeq⟩,
        [ OutEvent.opponentFinished roomId sid finishType,
          OutEvent.updateRoomList (getRoomList (eraseRoomById
            (updateFirst (fun r => r.id == roomId) (fun _ => finishedRoom room sid)
              st.rooms) roomId)) ])) ∧
    findRoomById (gameOver st sid roomId finishType).1.rooms roomId = none := by
  have h' : st.rooms.find? (fun r => r.id == roomId) = some room := h
  have hall : ((finishedRoom room sid).players.all (fun p => p.finished == true)) = true := by
    simp [finishedRoom, hq, updateFirst, hsid]
  have heq := gameOver_found st sid roomId finishType room h
  rw [heq, if_pos hall]
  have hids : ((updateFirst (fun r => r.id == roomId) (fun _ => finishedRoom room sid)
      st.rooms).map (fun r => r.id)).Nodup := by
    rw [map_updateFirst_of_pos]
    · exact hnd
    · intro x hx
      have hxid : x.id = roomId := by simpa using hx
      have hrid : room.id = roomId := by simpa using List.find?_some h'
      simp [finishedRoom, hrid, hxid]
  exact ⟨rfl, find?_eraseFirst_id_none hids⟩

/-- Witness for C10: the host of a fresh one-player WAITING room destroys
it with a single `game_over`. -/
theorem claim_C10_witness :
    findRoomById (gameOver stW "s1" "room_1" "GIVE_UP").1.rooms "room_1" = none :=
  (claim_C10 stW "s1" "room_1" "GIVE_UP" roomW hostP (by decide) (by decide)
    (by decide) (by decide) (by decide)).2

/-- Claim C9: one reaper tick deletes exactly the rooms with no connected
player (keeping every other room unchanged, in order), emits one
`update_room_list` broadcast per deletion, and afterwards no summary in
the room list carries a fully-disconnected room's id. -/
theorem claim_C9 (st : ServerState)
    (hnd : (st.rooms.map (fun r => r.id)).Nodup) :
    ((sweep st).1.rooms = st.rooms.filter (fun r => r.players.any (fun p => p.connected))) ∧
    ((sweep st).2.length =
      (st.rooms.filter (fun r => !(r.players.any (fun p => p.connected)))).length) ∧
    (∀ e ∈ (sweep st).2, ∃ L, e = OutEvent.updateRoomList L) ∧
    (∀ r ∈ st.rooms, (r.players.any (fun p => p.connected)) = false →
      ∀ s ∈ getRoomList (sweep st).1.rooms, s.id ≠ r.id) := by
  refine ⟨?_, ?_, ?_, ?_⟩
  · unfold sweep
    simp [sweepAux_fst]
  · unfold sweep
    simp [sweepAux_snd_length]
  · unfold sweep
    intro e he
    exact sweepAux_snd_shape [] st.rooms e he
  · intro r hr hconn s hs hsid
    unfold sweep at hs
    simp only [sweepAux_fst, List.nil_append] at hs
    unfold getRoomList at hs
    rcases List.mem_map.mp hs with ⟨k, hk, hks⟩
    have hkmem := List.mem_of_mem_filter hk
    have hkeep : (k.players.any (fun p => p.connected)) = true := by
      have := List.of_mem_filter hk
      simpa using this
    have hkid : k.id = r.id := by
      rw [← hks] at hsid
      simpa using hsid
    have hkr : k = r :=
      List.inj_on_of_nodup_map hnd hkmem hr hkid
    rw [hkr] at hkeep
    rw [hkeep] at hconn
    cases hconn

/-- Witness for C9: a PLAYING room whose two players are both disconnected
is deleted by the sweep and its id is absent from the resulting list. -/
theorem claim_C9_witness :
    ((sweep stDead).1.rooms = []) ∧
    (∀ s ∈ getRoomList (sweep stDead).1.rooms, s.id ≠ "room_1") := by
  have h := claim_C9 stDead (by decide)
  refine ⟨h.1.trans (by decide), ?_⟩
  intro s hs
  have hdead : (deadRoom.players.any (fun p => p.connected)) = false := by decide
  have := h.2.2.2 deadRoom (by simp [stDead]) hdead s hs
  simpa [deadRoom] using this

theorem sidsDisjoint_symm {a b : Room} (h : sidsDisjoint a b) : sidsDisjoint b a :=
  fun p1 h1 p2 h2 => (h p2 h2 p1 h1).symm

theorem mem_updateFirst_found {α : Type} {p : α → Bool} {f : α → α} {l : List α} {x : α}
    (hfind : l.find? p = some x) {b : α} (hb : b ∈ updateFirst p f l) :
    b ∈ l ∨ b = f x := by
  induction l with
  | nil => simp [updateFirst] at hb
  | cons a as ih =>
    by_cases hpa : p a = true
    · rw [List.find?_cons_of_pos _ hpa] at hfind
      injection hfind with hfind
      subst hfind
      simp only [updateFirst, if_pos hpa, List.mem_cons] at hb
      rcases hb with hb | hb
      · exact Or.inr hb
      · exact Or.inl (List.mem_cons_of_mem a hb)
    · rw [List.find?_cons_of_neg _ hpa] at hfind
      simp only [updateFirst, if_neg hpa, List.mem_cons] at hb
      rcases hb with hb | hb
      · exact Or.inl (by simp [hb])
      · rcases ih hfind hb with hb1 | hb1
        · exact Or.inl (List.mem_cons_of_mem a hb1)
        · exact Or.inr hb1

theorem pairwise_updateFirst_found {α : Type} {R : α → α → Prop} {p : α → Bool} {f : α → α}
    {l : List α} {x : α}
    (hsym : ∀ {a b : α}, R a b → R b a)
    (hfind : l.find? p = some x)
    (h : List.Pairwise R l)
    (hnew : ∀ y ∈ l, R y x → R y (f x)) :
    List.Pairwise R (updateFirst p f l) := by
  induction l with
  | nil => simp [updateFirst]
  | cons a as ih =>
    rcases List.pairwise_cons.mp h with ⟨hhead, htail⟩
    by_cases hpa : p a = true
    · rw [List.find?_cons_of_pos _ hpa] at hfind
      injection hfind with hfind
      subst hfind
      simp only [updateFirst, if_pos hpa]
      rw [List.pairwise_cons]
      refine ⟨?_, htail⟩
      intro b hb
      exact hsym (hnew b (List.mem_cons_of_mem a hb) (hsym (hhead b hb)))
    · rw [List.find?_cons_of_neg _ hpa] at hfind
      have hxas : x ∈ as := List.mem_of_find?_eq_some hfind
      simp only [updateFirst, if_neg hpa]
      rw [List.pairwise_cons]
      constructor
      · intro b hb
        rcases mem_updateFirst_found hfind hb with hb1 | hb1
        · exact hhead b hb1
        · rw [hb1]
          exact hnew a (List.mem_cons_self a as) (hhead x hxas)
      · exact ih hfind htail (fun y hy => hnew y (List.mem_cons_of_mem a hy))

theorem joinRoom_joined_noStart (st : ServerState) (sid roomId nickname : String)
    (rp : Option Int) (gw : String → Option Int) (songIdx chartIdx : Nat) (now : Int)
    (room : Room)
    (h : findRoomById st.rooms roomId = some room)
    (hrec : room.players.any (fun p => p.nickname == nickname) = false)
    (hfull : ¬(room.players.length ≥ 2))
    (hlen : ((room.players ++ [joinedPlayer sid nickname (joinRating rp gw nickname)]).length
      == 2) = false) :
    joinRoom st sid roomId nickname rp gw songIdx chartIdx now =
      ({ st with rooms := (updateFirst (fun r => r.id == roomId)
          (fun _ => joinedRoom room (joinedPlayer sid nickname (joinRating rp gw nickname)))
          st.rooms) },
        [ OutEvent.roomJoined sid roomId
            (joinedRoom room (joinedPlayer sid nickname (joinRating rp gw nickname))) false,
          OutEvent.playerEntered roomId sid nickname (joinRating rp gw nickname),
          OutEvent.updateRoomList (getRoomList
            (updateFirst (fun r => r.id == roomId)
              (fun _ => joinedRoom room (joinedPlayer sid nickname (joinRating rp gw nickname)))
              st.rooms)) ]) := by
  unfold joinRoom
  rw [h]
  simp only [hrec, Bool.false_eq_true, if_false, if_neg hfull, joinedRoom, joinedPlayer] at hlen ⊢
  rw [hlen]
  simp

theorem joinRoom_joined_start (st : ServerState) (sid roomId nickname : String)
    (rp : Option Int) (gw : String → Option Int) (songIdx chartIdx : Nat) (now : Int)
    (room : Room)
    (h : findRoomById st.rooms roomId = some room)
    (hrec : room.players.any (fun p => p.nickname == nickname) = false)
    (hfull : ¬(room.players.length ≥ 2))
    (hlen : ((room.players ++ [joinedPlayer sid nickname (joinRating rp gw nickname)]).length
      == 2) = true) :
    joinRoom st sid roomId nickname rp gw songIdx chartIdx now =
      ((startGameSequence ({ st with rooms := (updateFirst (fun r => r.id == roomId)
          (fun _ => joinedRoom room (joinedPlayer sid nickname (joinRating rp gw nickname)))
          st.rooms) }) roomId gw songIdx chartIdx now).1,
        [ OutEvent.roomJoined sid roomId
            (joinedRoom room (joinedPlayer sid nickname (joinRating rp gw nickname))) false,
          OutEvent.playerEntered roomId sid nickname (joinRating rp gw nickname),
          OutEvent.updateRoomList (getRoomList
            (updateFirst (fun r => r.id == roomId)
              (fun _ => joinedRoom room (joinedPlayer sid nickname (joinRating rp gw nickname)))
              st.rooms)) ] ++
          (startGameSequence ({ st with rooms := (updateFirst (fun r => r.id == roomId)
            (fun _ => joinedRoom room (joinedPlayer sid nickname (joinRating rp gw nickname)))
            st.rooms) }) roomId gw songIdx chartIdx now).2) := by
  unfold joinRoom
  rw [h]
  simp only [hrec, Bool.false_eq_true, if_false, if_neg hfull, joinedRoom, joinedPlayer] at hlen ⊢
  rw [hlen]
  simp

theorem pairwise_putRoom {l : List Room} {new : Room}
    (h : List.Pairwise sidsDisjoint l)
    (hnew : ∀ y ∈ l, sidsDisjoint y new) :
    List.Pairwise sidsDisjoint (putRoom l new) := by
  unfold putRoom
  by_cases hc : (l.any (fun r => r.id == new.id)) = true
  · rw [if_pos hc]
    have hs : (l.find? (fun r => r.id == new.id)).isSome := by
      rw [List.find?_isSome]
      simpa using List.any_eq_true.mp hc
    obtain ⟨x, hfind⟩ := Option.isSome_iff_exists.mp hs
    exact pairwise_updateFirst_found (fun {a b} => sidsDisjoint_symm) hfind h
      (fun y hy _ => hnew y hy)
  · rw [if_neg hc]
    rw [List.pairwise_append]
    refine ⟨h, List.pairwise_singleton _ _, ?_⟩
    intro y hy z hz
    rw [List.mem_singleton.mp hz]
    exact hnew y hy

theorem roomsDisjoint_create (st : ServerState) (sid title nickname : String)
    (gw : String → Option Int) (h : roomsDisjoint st) (hfree : sidFree st sid) :
    roomsDisjoint (createRoom st sid title nickname gw).1 := by
  show List.Pairwise sidsDisjoint (putRoom st.rooms _)
  apply pairwise_putRoom h
  intro y hy p1 h1 p2 h2
  rw [List.mem_singleton.mp h2]
  exact hfree y hy p1 h1

theorem roomsDisjoint_quick (st : ServerState) (sid nickname : String) (rp : Option Int)
    (gw : String → Option Int) (h : roomsDisjoint st) (hfree : sidFree st sid) :
    roomsDisjoint (quickMatch st sid nickname rp gw).1 := by
  unfold quickMatch
  cases hf : st.rooms.find? (fun r => r.status == Status.WAITING && r.players.length < 2) with
  | some availableRoom => exact h
  | none =>
    show List.Pairwise sidsDisjoint (putRoom st.rooms _)
    apply pairwise_putRoom h
    intro y hy p1 h1 p2 h2
    rw [List.mem_singleton.mp h2]
    exact hfree y hy p1 h1

theorem roomsDisjoint_startGame (st : ServerState) (roomId : String)
    (gw : String → Option Int) (songIdx chartIdx : Nat) (now : Int)
    (h : roomsDisjoint st) :
    roomsDisjoint (startGameSequence st roomId gw songIdx chartIdx now).1 := by
  unfold startGameSequence
  cases hf : findRoomById st.rooms roomId with
  | none => exact h
  | some room =>
    have hf' : st.rooms.find? (fun r => r.id == roomId) = some room := hf
    show List.Pairwise sidsDisjoint (updateFirst _ _ st.rooms)
    apply pairwise_updateFirst_found (fun {a b} => sidsDisjoint_symm) hf' h
    intro y hy hyx p1 h1 p2 h2
    exact hyx p1 h1 p2 h2

theorem roomsDisjoint_join (st : ServerState) (sid roomId nickname : String) (rp : Option Int)
    (gw : String → Option Int) (songIdx chartIdx : Nat) (now : Int)
    (h : roomsDisjoint st) (hfree : sidFree st sid) :
    roomsDisjoint (joinRoom st sid roomId nickname rp gw songIdx chartIdx now).1 := by
  cases hf : findRoomById st.rooms roomId with
  | none =>
    rw [joinRoom_notFound st sid roomId nickname rp gw songIdx chartIdx now hf]
    exact h
  | some room =>
    have hf' : st.rooms.find? (fun r => r.id == roomId) = some room := hf
    by_cases hrec : room.players.any (fun p => p.nickname == nickname) = true
    · rw [joinRoom_reconnect st sid roomId nickname rp gw songIdx chartIdx now room hf hrec]
      show List.Pairwise sidsDisjoint (updateFirst _ _ st.rooms)
      apply pairwise_updateFirst_found (fun {a b} => sidsDisjoint_symm) hf' h
      intro y hy hyx p1 h1 p2 h2
      rcases mem_updateFirst h2 with h2' | ⟨z, hz, hp2⟩
      · exact hyx p1 h1 p2 h2'
      · rw [hp2]
        exact hfree y hy p1 h1
    · have hrec' : room.players.any (fun p => p.nickname == nickname) = false := by
        simpa using hrec
      by_cases hfull : room.players.length ≥ 2
      · rw [joinRoom_full st sid roomId nickname rp gw songIdx chartIdx now room hf hrec' hfull]
        exact h
      · have hJ : List.Pairwise sidsDisjoint (updateFirst (fun r => r.id == roomId)
            (fun _ => joinedRoom room (joinedPlayer sid nickname (joinRating rp gw nickname)))
            st.rooms) := by
          apply pairwise_updateFirst_found (fun {a b} => sidsDisjoint_symm) hf' h
          intro y hy hyx p1 h1 p2 h2
          simp only [joinedRoom, List.mem_append] at h2
          rcases h2 with h2' | h2'
          · exact hyx p1 h1 p2 h2'
          · rw [List.mem_singleton.mp h2']
            exact hfree y hy p1 h1
        by_cases hlen : ((room.players ++
            [joinedPlayer sid nickname (joinRating rp gw nickname)]).length == 2) = true
        · rw [joinRoom_joined_start st sid roomId nickname rp gw songIdx chartIdx now room
            hf hrec' hfull hlen]
          exact roomsDisjoint_startGame _ roomId gw songIdx chartIdx now hJ
        · have hlen' : ((room.players ++
              [joinedPlayer sid nickname (joinRating rp gw nickname)]).length == 2) = false := by
            simpa using hlen
          rw [joinRoom_joined_noStart st sid roomId nickname rp gw songIdx chartIdx now room
            hf hrec' hfull hlen']
          exact hJ

theorem roomsDisjoint_enter (st : ServerState) (h : EnterReachable st) :
    roomsDisjoint st := by
  induction h with
  | init => exact List.Pairwise.nil
  | create st sid title nickname gw _ hfree ih =>
    exact roomsDisjoint_create st sid title nickname gw ih hfree
  | join st sid roomId nickname rp gw songIdx chartIdx now _ hfree ih =>
    exact roomsDisjoint_join st sid roomId nickname rp gw songIdx chartIdx now ih hfree
  | quick st sid nickname rp gw _ hfree ih =>
    exact roomsDisjoint_quick st sid nickname rp gw ih hfree

/-- Counterexample to claim C4: the state reached by the same connection
`"s1"` issuing `create_room` twice without leaving is reachable, yet its
two distinct rooms both hold a connected player entry for `"s1"` — the
handlers perform no cross-room membership check. -/
theorem claim_C4_counterexample :
    Reachable dupState ∧ ¬ noSharedConnection dupState := by
  constructor
  · exact Reachable.create _ "s1" "B" "Alice" gwNone
      (Reachable.create _ "s1" "A" "Alice" gwNone Reachable.init)
  · intro hcontra
    unfold noSharedConnection at hcontra
    have : ¬ (List.Pairwise (fun r1 r2 : Room => ∀ p1 ∈ r1.players, p1.connected = true →
        ∀ p2 ∈ r2.players, p2.connected = true → p1.socketId ≠ p2.socketId)
        dupState.rooms) := by decide
    exact this hcontra

/-- Claim C4 as amended: restricted to event sequences in which every
`create_room` / `join_room` / `quick_match` comes from a connection not
currently recorded in any room, no two distinct rooms ever contain a
connected player entry with the same connection. -/
theorem claim_C4_amended (st : ServerState) (h : EnterReachable st) :
    noSharedConnection st := by
  have hd := roomsDisjoint_enter st h
  exact List.Pairwise.imp
    (fun hab => fun p1 h1 _ p2 h2 _ => hab p1 h1 p2 h2) hd

/-- Witness for the amended C4: two creates from distinct fresh
connections satisfy the discipline, and the resulting registry shares no
connection between its two rooms. -/
theorem claim_C4_amended_witness :
    noSharedConnection
      (createRoom (createRoom initialState "s1" "A" "Alice" gwNone).1 "s2" "B" "Bob" gwNone).1 :=
  claim_C4_amended _
    (EnterReachable.create _ "s2" "B" "Bob" gwNone
      (EnterReachable.create _ "s1" "A" "Alice" gwNone EnterReachable.init (by decide))
      (by decide))
